import Mathlib

/-!
Shallow embedding of `wasabi+cloudflare+impossibleapi_multi_cloud_upload.py`,
the multi-cloud uploader script.  Pure computations (size checks, file
enumeration, progress arithmetic, result bookkeeping) are translated into
executable Lean definitions; every call into the boto3 client (head_bucket,
create_bucket, list_objects pagination, upload_file, generate_presigned_url)
is abstracted into an oracle returning a `CallResult`: either a normal value,
a botocore `ClientError` carrying its error code, or any other Python
exception.  `try/except ClientError` blocks of the source catch exactly the
`clientError` constructor; an `otherExc` outcome propagates as an uncaught
exception, modelled with `Except PyExc`.
-/

namespace S3Multi

/-- Outcome of one call into the boto3 client: a normal return value, a
botocore `ClientError` (with its error code string), or any other Python
exception, which no `except ClientError` clause of the script catches. -/
inductive CallResult (α : Type) where
  | ok (val : α)
  | clientError (code : String)
  | otherExc
deriving DecidableEq

/-- An uncaught Python exception escaping a function of the script. -/
inductive PyExc where
  | uncaught
deriving DecidableEq

/-- One provider configuration dict (`R2_CONFIG` / `IMPOSSIBLE_CONFIG` /
`WASABI_CONFIG`): its `name`, `bucket_name`, optional `max_size_gb` quota
(a float in the source, embedded as a rational), whether `config['client']`
is non-`None` after initialization, and the `enabled` flag. -/
structure CloudConfig where
  name : String
  bucket_name : String
  max_size_gb : Option ℚ
  clientOk : Bool
  enabled : Bool
deriving DecidableEq

/-- Structured content of the reason string built by `check_size_limit`:
`noLimit` is the `"No limit"` string, `available b` is the
`f"Available: {b/(1024**3):.4f} GB"` string (the margin `b` is computed in
bytes and only formatted as GB), `exceedsBy b` likewise for
`f"Exceeds by: {b/(1024**3):.4f} GB"`. -/
inductive LimitReason where
  | noLimit
  | available (bytes : ℚ)
  | exceedsBy (bytes : ℚ)
deriving DecidableEq

/-- Translation of `check_size_limit(config, existing_size, new_files_size)`:
no configured quota admits unconditionally; otherwise the whole-batch total
`existing_size + new_files_size` is compared once against
`max_size_gb * 1024 ** 3`. -/
def check_size_limit (config : CloudConfig) (existing_size new_files_size : ℕ) :
    Bool × LimitReason :=
  match config.max_size_gb with
  | none => (true, LimitReason.noLimit)
  | some gb =>
    let max_size_bytes : ℚ := gb * 1024 ^ 3
    let total_size : ℚ := (existing_size : ℚ) + (new_files_size : ℚ)
    if total_size ≤ max_size_bytes then
      (true, LimitReason.available (max_size_bytes - total_size))
    else
      (false, LimitReason.exceedsBy (total_size - max_size_bytes))

/-- Translation of `get_bucket_size(config)`.  The paginated
`list_objects_v2` stream is abstracted as one `CallResult` carrying the list
of object sizes; a missing client returns `(0, 0)`, and both `ClientError`
branches of the source (`NoSuchBucket` and any other code) return `(0, 0)`.
A non-`ClientError` exception is uncaught. -/
def get_bucket_size (config : CloudConfig) (listing : CallResult (List ℕ)) :
    Except PyExc (ℕ × ℕ) :=
  if config.clientOk then
    match listing with
    | CallResult.ok objs => Except.ok (objs.sum, objs.length)
    | CallResult.clientError _ => Except.ok (0, 0)
    | CallResult.otherExc => Except.error PyExc.uncaught
  else
    Except.ok (0, 0)

/-- One entry returned by `os.listdir`: its name, whether `os.path.isfile`
holds for it (false for subdirectories), and its `os.path.getsize` size. -/
structure DirEntry where
  name : String
  isFile : Bool
  size : ℕ
deriving DecidableEq

/-- State of the source folder: whether `os.path.exists` holds and the
entries `os.listdir` yields, in listing order. -/
structure Folder where
  present : Bool
  entries : List DirEntry
deriving DecidableEq

/-- Translation of `get_local_files_size(folder_path)`: a missing folder
yields `(0, [])`; otherwise the loop keeps exactly the `isfile` entries,
accumulating total size and `(item_name, item_path, file_size)` triples in
listing order. -/
def get_local_files_size (folder_path : String) (fs : Folder) :
    ℕ × List (String × String × ℕ) :=
  if fs.present then
    fs.entries.foldl
      (fun acc e =>
        if e.isFile then
          (acc.1 + e.size, acc.2 ++ [(e.name, folder_path ++ "/" ++ e.name, e.size)])
        else acc)
      (0, [])
  else (0, [])

/-- Python division: raises `ZeroDivisionError` (uncaught in the script) on a
zero divisor, otherwise returns the exact quotient. -/
def pydiv (a b : ℚ) : Except PyExc ℚ :=
  if b = 0 then Except.error PyExc.uncaught else Except.ok (a / b)

/-- Python `int()` truncation toward zero on a rational. -/
def pyint (q : ℚ) : ℤ :=
  if 0 ≤ q then ⌊q⌋ else ⌈q⌉

/-- ETA field of a progress line: the `"Unknown"` string or
`timedelta(seconds=int(estimated_seconds))`. -/
inductive Eta where
  | unknown
  | secs (s : ℤ)
deriving DecidableEq

/-- Data content of one printed progress line of `ProgressTracker.__call__`:
the percentage, the speed in MB/s, and the ETA field. -/
structure EmitLine where
  percentage : ℚ
  speedMBps : ℚ
  eta : Eta
deriving DecidableEq

/-- State of a `ProgressTracker` instance: constructor arguments plus the
mutable `bytes_transferred`, `start_time` and `last_print_time` fields. -/
structure ProgressTracker where
  cloud_name : String
  file_name : String
  total_bytes : ℤ
  bytes_transferred : ℤ
  start_time : ℚ
  last_print_time : ℚ
deriving DecidableEq

/-- Translation of `ProgressTracker.__call__(new_bytes)` at wall-clock time
`current_time`: accumulate bytes; if at least one second passed since the
last print, compute speed, ETA (guarded by `bytes_transferred > 0`,
otherwise `"Unknown"`) and `percentage = bytes_transferred / total_bytes *
100` — the latter division is unguarded in the source, so a zero
`total_bytes` raises `ZeroDivisionError`. -/
def ProgressTracker.call (t : ProgressTracker) (new_bytes : ℤ) (current_time : ℚ) :
    Except PyExc (ProgressTracker × Option EmitLine) :=
  let bt := t.bytes_transferred + new_bytes
  if 1 ≤ current_time - t.last_print_time then
    let elapsed := max (current_time - t.start_time) (1 / 1000 : ℚ)
    match pydiv (bt : ℚ) ((1024 : ℚ) ^ 2) with
    | Except.error e => Except.error e
    | Except.ok mb =>
      match pydiv mb elapsed with
      | Except.error e => Except.error e
      | Except.ok speed =>
        let remaining : ℚ := (t.total_bytes : ℚ) - (bt : ℚ)
        let etaRes : Except PyExc Eta :=
          if 0 < bt then
            match pydiv (bt : ℚ) elapsed with
            | Except.error e => Except.error e
            | Except.ok rate =>
              match pydiv remaining rate with
              | Except.error e => Except.error e
              | Except.ok est => Except.ok (Eta.secs (pyint est))
          else Except.ok Eta.unknown
        match etaRes with
        | Except.error e => Except.error e
        | Except.ok eta =>
          match pydiv (bt : ℚ) ((t.total_bytes : ℤ) : ℚ) with
          | Except.error e => Except.error e
          | Except.ok pct =>
            Except.ok
              ({ t with bytes_transferred := bt, last_print_time := current_time },
               some { percentage := pct * 100, speedMBps := speed, eta := eta })
  else
    Except.ok ({ t with bytes_transferred := bt }, none)

/-- Constructor `ProgressTracker(cloud_name, file_name, total_bytes)` at
start time `now` (both timestamps initialised to `now`). -/
def ProgressTracker.init (cloud file : String) (total : ℤ) (now : ℚ) : ProgressTracker :=
  { cloud_name := cloud, file_name := file, total_bytes := total,
    bytes_transferred := 0, start_time := now, last_print_time := now }

/-- Python `dict.get(k, False)` on the `size_check_results` dict, embedded as
an association list built in insertion order (config names are distinct in
the script, so first-match lookup coincides with dict lookup). -/
def lookupD (results : List (String × Bool)) (k : String) : Bool :=
  match results.find? (fun p => p.1 = k) with
  | some p => p.2
  | none => false

/-- A target the upload loop actually sends bytes to: `enabled`, a live
client, and a passed size check (`size_check_results.get(name, False)`). -/
def targetAdmitted (c : CloudConfig) (scr : List (String × Bool)) : Bool :=
  (c.enabled && c.clientOk) && lookupD scr c.name

/-- Translation of `upload_file_to_cloud(config, file_name, file_path,
file_size, size_check_passed)`.  The `file_path`/`file_size` arguments only
feed the client call and its per-call `ProgressTracker`, so they are folded
into the upload oracle `u` (file name, config name ↦ call outcome).  Only a
`ClientError` is caught (returning `False`); any other exception escapes. -/
def upload_file_to_cloud (config : CloudConfig) (file_name : String)
    (size_check_passed : Bool) (u : String → String → CallResult Unit) :
    Except PyExc Bool :=
  if config.clientOk then
    if size_check_passed then
      match u file_name config.name with
      | CallResult.ok _ => Except.ok true
      | CallResult.clientError _ => Except.ok false
      | CallResult.otherExc => Except.error PyExc.uncaught
    else Except.ok false
  else Except.ok false

/-- Inner loop of `upload_all_files` over `configs` for one file: disabled
or client-less configs are skipped with `continue`; a `True` return appends
`item_name` to `results[config['name']]` (the ledger embedded as a function
from target name to its list). -/
def uploadConfigsLoop (fname : String) (configs : List CloudConfig)
    (scr : List (String × Bool)) (u : String → String → CallResult Unit)
    (results : String → List String) : Except PyExc (String → List String) :=
  match configs with
  | [] => Except.ok results
  | c :: cs =>
    if c.enabled && c.clientOk then
      (upload_file_to_cloud c fname (lookupD scr c.name) u).bind
        (fun success =>
          uploadConfigsLoop fname cs scr u
            (if success then
               fun k => if k = c.name then results k ++ [fname] else results k
             else results))
    else uploadConfigsLoop fname cs scr u results

/-- Outer loop of `upload_all_files` over `files_to_upload`, threading the
results dict; an uncaught exception from any pair aborts the loop. -/
def uploadFilesLoop (files : List (String × String × ℕ)) (configs : List CloudConfig)
    (scr : List (String × Bool)) (u : String → String → CallResult Unit)
    (results : String → List String) : Except PyExc (String → List String) :=
  match files with
  | [] => Except.ok results
  | f :: fs =>
    (uploadConfigsLoop f.1 configs scr u results).bind
      (fun r => uploadFilesLoop fs configs scr u r)

/-- Translation of `upload_all_files(files_to_upload, size_check_results)`:
the ledger starts empty for every name and is filled by the nested loops. -/
def upload_all_files (files : List (String × String × ℕ)) (configs : List CloudConfig)
    (scr : List (String × Bool)) (u : String → String → CallResult Unit) :
    Except PyExc (String → List String) :=
  uploadFilesLoop files configs scr u (fun _ => [])

/-- Names appended to ledger key `k` while one file is offered to each
config in order: one entry per admitted config named `k` whose upload call
returns normally.  Characterises the inner loop of `upload_all_files`. -/
def perFileAppend (fname : String) (configs : List CloudConfig)
    (scr : List (String × Bool)) (u : String → String → CallResult Unit)
    (k : String) : List String :=
  match configs with
  | [] => []
  | c :: cs =>
    (if k = c.name ∧ targetAdmitted c scr = true ∧ u fname c.name = CallResult.ok ()
     then [fname] else []) ++ perFileAppend fname cs scr u k

/-- Names appended to ledger key `k` over a whole file list, in enumeration
order.  Characterises the outer loop of `upload_all_files`. -/
def filesAppend (files : List (String × String × ℕ)) (configs : List CloudConfig)
    (scr : List (String × Bool)) (u : String → String → CallResult Unit)
    (k : String) : List String :=
  match files with
  | [] => []
  | f :: fs => perFileAppend f.1 configs scr u k ++ filesAppend fs configs scr u k

/-- Trace of the `client.upload_file` invocations the inner loop of
`upload_all_files` performs for one file — one `(file, target)` entry per
config reaching the client call (enabled, live client, size check passed).
The Bool marks an uncaught exception aborting the run at that call. -/
def uploadCallsConfigsLoop (fname : String) (configs : List CloudConfig)
    (scr : List (String × Bool)) (u : String → String → CallResult Unit) :
    List (String × String) × Bool :=
  match configs with
  | [] => ([], false)
  | c :: cs =>
    if c.enabled && c.clientOk then
      if lookupD scr c.name then
        match u fname c.name with
        | CallResult.otherExc => ([(fname, c.name)], true)
        | _ =>
          ((fname, c.name) :: (uploadCallsConfigsLoop fname cs scr u).1,
           (uploadCallsConfigsLoop fname cs scr u).2)
      else uploadCallsConfigsLoop fname cs scr u
    else uploadCallsConfigsLoop fname cs scr u

/-- Trace of the `client.upload_file` invocations of `upload_all_files` over
the whole file list, truncated at the first uncaught exception. -/
def uploadCallsFilesLoop (files : List (String × String × ℕ)) (configs : List CloudConfig)
    (scr : List (String × Bool)) (u : String → String → CallResult Unit) :
    List (String × String) :=
  match files with
  | [] => []
  | f :: fs =>
    if (uploadCallsConfigsLoop f.1 configs scr u).2 then
      (uploadCallsConfigsLoop f.1 configs scr u).1
    else
      (uploadCallsConfigsLoop f.1 configs scr u).1 ++ uploadCallsFilesLoop fs configs scr u

/-- Trace of client upload invocations for a full `upload_all_files` run. -/
def uploadClientCalls (files : List (String × String × ℕ)) (configs : List CloudConfig)
    (scr : List (String × Bool)) (u : String → String → CallResult Unit) :
    List (String × String) :=
  uploadCallsFilesLoop files configs scr u

/-- The `(file, target)` pairs every admitted target receives when no call
raises an uncaught exception: for each file in order, one entry per admitted
config in order. -/
def allAdmittedCalls (files : List (String × String × ℕ)) (configs : List CloudConfig)
    (scr : List (String × Bool)) : List (String × String) :=
  match files with
  | [] => []
  | f :: fs =>
    (configs.filter (fun c => targetAdmitted c scr)).map (fun c => (f.1, c.name)) ++
      allAdmittedCalls fs configs scr

/-- Translation of `create_bucket_if_not_exists(config)`: `head_bucket`
success means the bucket exists; a `ClientError` with code `'404'` triggers
`create_bucket` (whose own `ClientError` yields `False`); any other
`ClientError` code yields `False`; non-`ClientError` exceptions escape. -/
def create_bucket_if_not_exists (config : CloudConfig)
    (headRes createRes : CallResult Unit) : Except PyExc Bool :=
  if config.clientOk then
    match headRes with
    | CallResult.ok _ => Except.ok true
    | CallResult.clientError code =>
      if code = "404" then
        match createRes with
        | CallResult.ok _ => Except.ok true
        | CallResult.clientError _ => Except.ok false
        | CallResult.otherExc => Except.error PyExc.uncaught
      else Except.ok false
    | CallResult.otherExc => Except.error PyExc.uncaught
  else Except.ok false

/-- Loop of `check_all_buckets`: each enabled config with a live client gets
a `create_bucket_if_not_exists` call; the Boolean results are collected only
to be discarded by the caller, exactly as the script ignores them. -/
def bucketsLoop (configs : List CloudConfig) (headO createO : String → CallResult Unit)
    (acc : List Bool) : Except PyExc (List Bool) :=
  match configs with
  | [] => Except.ok acc
  | c :: cs =>
    if c.enabled && c.clientOk then
      (create_bucket_if_not_exists c (headO c.name) (createO c.name)).bind
        (fun b => bucketsLoop cs headO createO (acc ++ [b]))
    else bucketsLoop cs headO createO acc

/-- Translation of `check_all_buckets()` over a config list. -/
def check_all_buckets (configs : List CloudConfig)
    (headO createO : String → CallResult Unit) : Except PyExc (List Bool) :=
  bucketsLoop configs headO createO []

/-- Loop of `check_all_size_limits(configs, new_files_size)`: skips disabled
or client-less configs, queries `get_bucket_size`, and records
`results[name] = check_size_limit(...)` for quota-bearing configs and
`results[name] = True` for unconstrained ones, in insertion order. -/
def sizeLimitLoop (configs : List CloudConfig) (listing : String → CallResult (List ℕ))
    (new_files_size : ℕ) (results : List (String × Bool)) :
    Except PyExc (List (String × Bool)) :=
  match configs with
  | [] => Except.ok results
  | c :: cs =>
    if c.enabled && c.clientOk then
      (get_bucket_size c (listing c.name)).bind
        (fun sz =>
          match c.max_size_gb with
          | some _ =>
            sizeLimitLoop cs listing new_files_size
              (results ++ [(c.name, (check_size_limit c sz.1 new_files_size).1)])
          | none => sizeLimitLoop cs listing new_files_size (results ++ [(c.name, true)]))
    else sizeLimitLoop cs listing new_files_size results

/-- Translation of `check_all_size_limits(configs, new_files_size)`. -/
def check_all_size_limits (configs : List CloudConfig)
    (listing : String → CallResult (List ℕ)) (new_files_size : ℕ) :
    Except PyExc (List (String × Bool)) :=
  sizeLimitLoop configs listing new_files_size []

/-- Loop of `generate_presigned_urls`: one `generate_presigned_url` call per
file name; a `ClientError` logs and skips that name, success appends
`(file_name, url)`, any other exception escapes. -/
def presignLoop (names : List String) (presign : String → ℕ → CallResult String)
    (expiration : ℕ) (acc : List (String × String)) :
    Except PyExc (List (String × String)) :=
  match names with
  | [] => Except.ok acc
  | n :: ns =>
    match presign n expiration with
    | CallResult.ok url => presignLoop ns presign expiration (acc ++ [(n, url)])
    | CallResult.clientError _ => presignLoop ns presign expiration acc
    | CallResult.otherExc => Except.error PyExc.uncaught

/-- Translation of `generate_presigned_urls(config, file_names, expiration)`
(the script always uses the default `expiration=604800`). -/
def generate_presigned_urls (config : CloudConfig) (file_names : List String)
    (presign : String → ℕ → CallResult String) (expiration : ℕ) :
    Except PyExc (List (String × String)) :=
  if config.clientOk then presignLoop file_names presign expiration []
  else Except.ok []

/-- First reporting pass of `print_summary`: for every enabled config with a
non-empty ledger entry the script re-queries `get_bucket_size` (the value is
only printed). -/
def summarySizesLoop (configs : List CloudConfig) (results : String → List String)
    (listing : String → CallResult (List ℕ)) : Except PyExc Unit :=
  match configs with
  | [] => Except.ok ()
  | c :: cs =>
    if c.enabled then
      if (results c.name).isEmpty then summarySizesLoop cs results listing
      else (get_bucket_size c (listing c.name)).bind (fun _ => summarySizesLoop cs results listing)
    else summarySizesLoop cs results listing

/-- Second reporting pass of `print_summary`: presigned URLs for every
enabled config with a non-empty ledger entry, with the default 7-day
expiry. -/
def summaryUrlsLoop (configs : List CloudConfig) (results : String → List String)
    (presign : String → String → ℕ → CallResult String)
    (acc : List (String × List (String × String))) :
    Except PyExc (List (String × List (String × String))) :=
  match configs with
  | [] => Except.ok acc
  | c :: cs =>
    if c.enabled then
      if (results c.name).isEmpty then summaryUrlsLoop cs results presign acc
      else
        (generate_presigned_urls c (results c.name) (presign c.name) 604800).bind
          (fun urls => summaryUrlsLoop cs results presign (acc ++ [(c.name, urls)]))
    else summaryUrlsLoop cs results presign acc

/-- Translation of `print_summary(results)` restricted to its data flow:
the bucket re-query pass followed by the presigned-URL pass. -/
def print_summary_model (configs : List CloudConfig) (results : String → List String)
    (listing : String → CallResult (List ℕ))
    (presign : String → String → ℕ → CallResult String) :
    Except PyExc (List (String × List (String × String))) :=
  (summarySizesLoop configs results listing).bind
    (fun _ => summaryUrlsLoop configs results presign [])

/-- The external world one run of the script observes: the configured
targets (with their post-initialization client state), the source folder,
and one oracle per boto3 capability, each keyed by config name. -/
structure Env where
  configs : List CloudConfig
  folder : Folder
  listing : String → CallResult (List ℕ)
  headO : String → CallResult Unit
  createO : String → CallResult Unit
  upload : String → String → CallResult Unit
  presign : String → String → ℕ → CallResult String

/-- Result of one run of the `__main__` block: `exit(0)` on no files,
`exit(1)` on no eligible target, normal completion with the ledger and the
per-target URL report, or an uncaught exception. -/
inductive MainOutcome where
  | noFiles
  | noEligible
  | completed (ledger : String → List String)
      (report : List (String × List (String × String)))
  | crashed (e : PyExc)

/-- Propagation of an uncaught exception through the main flow. -/
def onOk {α : Type} (x : Except PyExc α) (f : α → MainOutcome) : MainOutcome :=
  match x with
  | Except.error e => MainOutcome.crashed e
  | Except.ok a => f a

/-- Same propagation for the client-call trace: an aborted phase contributes
no further upload calls. -/
def onOkCalls {α : Type} (x : Except PyExc α) (f : α → List (String × String)) :
    List (String × String) :=
  match x with
  | Except.error _ => []
  | Except.ok a => f a

/-- The script's hardcoded `FOLDER_PATH`. -/
def FOLDER_PATH : String := "/content/3"

/-- Translation of the `__main__` block: initialize clients (reflected in
each config's `clientOk`), check/create buckets discarding the results, scan
local files, `exit(0)` if none, run the size checks, `exit(1)` if no
provider passed, upload everything, then print the summary. -/
def mainRun (env : Env) : MainOutcome :=
  onOk (check_all_buckets env.configs env.headO env.createO) (fun _ =>
    if (get_local_files_size FOLDER_PATH env.folder).2.isEmpty then MainOutcome.noFiles
    else
      onOk (check_all_size_limits env.configs env.listing
              (get_local_files_size FOLDER_PATH env.folder).1) (fun scr =>
        if scr.any (fun p => p.2) then
          onOk (upload_all_files (get_local_files_size FOLDER_PATH env.folder).2
                  env.configs scr env.upload) (fun results =>
            onOk (print_summary_model env.configs results env.listing env.presign)
              (fun report => MainOutcome.completed results report))
        else MainOutcome.noEligible))

/-- Process exit indicator of a run: `exit(0)` for no files, `exit(1)` for
no eligible provider, 0 on normal completion, 1 for an uncaught exception. -/
def mainExitCode : MainOutcome → ℕ
  | MainOutcome.noFiles => 0
  | MainOutcome.noEligible => 1
  | MainOutcome.completed _ _ => 0
  | MainOutcome.crashed _ => 1

/-- Single-target scenario used as a concrete run: one enabled target named
`"CF"` with a live client and no quota. -/
def wcfgA : CloudConfig :=
  { name := "CF", bucket_name := "b", max_size_gb := none, clientOk := true, enabled := true }

/-- Two files scanned from the source folder for the concrete run. -/
def wfiles : List (String × String × ℕ) :=
  [("x", "/content/3/x", 5), ("y", "/content/3/y", 6)]

/-- Size-check results admitting the `"CF"` target. -/
def wscr : List (String × Bool) := [("CF", true)]

/-- Upload behaviour for the concrete run: `"x"` uploads cleanly, every
other file fails with a caught `ClientError`. -/
def wu : String → String → CallResult Unit :=
  fun f _ => if f = "x" then CallResult.ok () else CallResult.clientError "AccessDenied"

/-- The ledger the concrete run produces: only `"x"` under `"CF"`. -/
def wLedger : String → List String :=
  fun k => if k = "CF" then ["x"] else []

/-- Target `A` of the two-target independence scenario. -/
def wA : CloudConfig :=
  { name := "A", bucket_name := "ba", max_size_gb := none, clientOk := true, enabled := true }

/-- Target `B` of the two-target independence scenario. -/
def wB : CloudConfig :=
  { name := "B", bucket_name := "bb", max_size_gb := none, clientOk := true, enabled := true }

/-- Size-check results admitting both targets of the independence
scenario. -/
def wscr2 : List (String × Bool) := [("A", true), ("B", true)]

/-- The two files of the independence scenario. -/
def wfiles2 : List (String × String × ℕ) :=
  [("X", "/content/3/X", 5), ("Y", "/content/3/Y", 6)]

/-- Upload behaviour where exactly the pair (file `"X"`, target `"A"`) fails
with a caught `ClientError`. -/
def wuFail : String → String → CallResult Unit :=
  fun f c => if f = "X" ∧ c = "A" then CallResult.clientError "SlowDown" else CallResult.ok ()

/-- Upload behaviour where every pair succeeds. -/
def wuOk : String → String → CallResult Unit := fun _ _ => CallResult.ok ()

/-- A run in which every upload raises a non-`ClientError` exception (as
boto3's `upload_file` does when it raises `S3UploadFailedError`): one
enabled target, one local file, healthy buckets and listings. -/
def envBad : Env :=
  { configs := [wcfgA],
    folder := { present := true, entries := [{ name := "f.bin", isFile := true, size := 7 }] },
    listing := fun _ => CallResult.ok [],
    headO := fun _ => CallResult.ok (),
    createO := fun _ => CallResult.ok (),
    upload := fun _ _ => CallResult.otherExc,
    presign := fun _ _ _ => CallResult.ok "url" }

/-- A run in which every upload fails with a caught `ClientError` and every
other call behaves: used to witness that such failures stay data. -/
def envGood : Env :=
  { configs := [wcfgA],
    folder := { present := true, entries := [{ name := "f.bin", isFile := true, size := 7 }] },
    listing := fun _ => CallResult.ok [5],
    headO := fun _ => CallResult.ok (),
    createO := fun _ => CallResult.ok (),
    upload := fun _ _ => CallResult.clientError "InternalError",
    presign := fun _ _ _ => CallResult.ok "https://u" }

/-- A run whose source folder exists but contains no files. -/
def envEmptyFolder : Env :=
  { configs := [],
    folder := { present := true, entries := [] },
    listing := fun _ => CallResult.ok [],
    headO := fun _ => CallResult.ok (),
    createO := fun _ => CallResult.ok (),
    upload := fun _ _ => CallResult.ok (),
    presign := fun _ _ _ => CallResult.ok "u" }

/-- A run whose only target carries a 0 GB quota, so its size check rejects
the 7-byte batch and no target remains eligible. -/
def envNoEligible : Env :=
  { configs := [{ name := "CF", bucket_name := "b", max_size_gb := some 0,
                  clientOk := true, enabled := true }],
    folder := { present := true, entries := [{ name := "f.bin", isFile := true, size := 7 }] },
    listing := fun _ => CallResult.ok [],
    headO := fun _ => CallResult.ok (),
    createO := fun _ => CallResult.ok (),
    upload := fun _ _ => CallResult.ok (),
    presign := fun _ _ _ => CallResult.ok "u" }

/-- The target of the missing-bucket scenario. -/
def wT : CloudConfig :=
  { name := "T", bucket_name := "bkt", max_size_gb := none, clientOk := true, enabled := true }

/-- A run whose target's bucket does not exist (`head_bucket` 404) and whose
`create_bucket` also fails, with every subsequent client call failing with
`NoSuchBucket` — the realistic state of a target with no usable bucket. -/
def envBucketGone : Env :=
  { configs := [wT],
    folder := { present := true, entries := [{ name := "f.bin", isFile := true, size := 7 }] },
    listing := fun _ => CallResult.clientError "NoSuchBucket",
    headO := fun _ => CallResult.clientError "404",
    createO := fun _ => CallResult.clientError "AccessDenied",
    upload := fun _ _ => CallResult.clientError "NoSuchBucket",
    presign := fun _ _ _ => CallResult.clientError "NoSuchBucket" }

/-- Presign behaviour that succeeds for file `"a"` and fails with a caught
`ClientError` for every other file. -/
def wpresign : String → ℕ → CallResult String :=
  fun n _ => if n = "a" then CallResult.ok "https://x/a"
             else CallResult.clientError "SignatureDoesNotMatch"

/-- Trace of the `client.upload_file` invocations one full run performs. -/
def mainClientCalls (env : Env) : List (String × String) :=
  onOkCalls (check_all_buckets env.configs env.headO env.createO) (fun _ =>
    if (get_local_files_size FOLDER_PATH env.folder).2.isEmpty then []
    else
      onOkCalls (check_all_size_limits env.configs env.listing
                   (get_local_files_size FOLDER_PATH env.folder).1) (fun scr =>
        if scr.any (fun p => p.2) then
          uploadClientCalls (get_local_files_size FOLDER_PATH env.folder).2
            env.configs scr env.upload
        else []))

end S3Multi

namespace S3Multi

/-- C1: CapacityGuard decision (`check_size_limit`): with no configured limit
every non-negative batch is admitted; with a limit of `gb` GB the target is
admitted iff `existing + new ≤ gb * 1024^3`, evaluated once on the
whole-batch total, and the reason carries the remaining margin in bytes when
admitted and the overage magnitude in bytes when rejected. -/
theorem capacity_guard_decision (config : CloudConfig) (existing_size new_files_size : ℕ) :
    (config.max_size_gb = none →
      check_size_limit config existing_size new_files_size = (true, LimitReason.noLimit)) ∧
    (∀ gb : ℚ, config.max_size_gb = some gb →
      ((check_size_limit config existing_size new_files_size).1 = true ↔
        (existing_size : ℚ) + (new_files_size : ℚ) ≤ gb * 1024 ^ 3) ∧
      ((existing_size : ℚ) + (new_files_size : ℚ) ≤ gb * 1024 ^ 3 →
        check_size_limit config existing_size new_files_size =
          (true, LimitReason.available
            (gb * 1024 ^ 3 - ((existing_size : ℚ) + (new_files_size : ℚ))))) ∧
      (¬ ((existing_size : ℚ) + (new_files_size : ℚ) ≤ gb * 1024 ^ 3) →
        check_size_limit config existing_size new_files_size =
          (false, LimitReason.exceedsBy
            (((existing_size : ℚ) + (new_files_size : ℚ)) - gb * 1024 ^ 3)))) := by
  constructor
  · intro h
    simp [check_size_limit, h]
  · intro gb h
    refine ⟨?_, ?_, ?_⟩
    · constructor
      · intro h1
        by_contra hle
        simp [check_size_limit, h, hle] at h1
      · intro hle
        simp [check_size_limit, h, hle]
    · intro hle
      simp [check_size_limit, h, hle]
    · intro hle
      simp [check_size_limit, h, hle]

/-- Witness for C1 at the script's R2 quota of 9.5 GB: existing 9 GB plus a
1 GB batch exceeds the quota, rejected with the 0.5 GB overage in bytes. -/
theorem capacity_guard_decision_witness :
    check_size_limit
        { name := "Cloudflare R2", bucket_name := "bucket", max_size_gb := some (19 / 2),
          clientOk := true, enabled := true }
        (9 * 1024 ^ 3) (1024 ^ 3) =
      (false, LimitReason.exceedsBy 536870912) := by
  have h :=
    ((capacity_guard_decision
        { name := "Cloudflare R2", bucket_name := "bucket", max_size_gb := some (19 / 2),
          clientOk := true, enabled := true }
        (9 * 1024 ^ 3) (1024 ^ 3)).2 (19 / 2) rfl).2.2
      (by norm_num)
  rw [h]
  norm_num

/-- C7: a target whose occupied-size query fails with a `ClientError` (a
listing error of any code, `NoSuchBucket` included) yields `(0, 0)` — zero
bytes, zero files — not a fatal error, and the recorded size-check decision
for such a target is exactly `check_size_limit` evaluated at
`existing_size = 0`, as if the bucket were empty. -/
theorem failed_size_query_treated_empty (config : CloudConfig) (code : String)
    (hc : config.clientOk = true) :
    get_bucket_size config (CallResult.clientError code) = Except.ok (0, 0) ∧
    ∀ new_files_size : ℕ,
      (match get_bucket_size config (CallResult.clientError code) with
        | Except.ok sz => (check_size_limit config sz.1 new_files_size).1
        | Except.error _ => false) =
        (check_size_limit config 0 new_files_size).1 := by
  refine ⟨by simp [get_bucket_size, hc], ?_⟩
  intro new_files_size
  simp [get_bucket_size, hc]

/-- Witness for C7: a client with a live handle whose listing call fails with
`NoSuchBucket` is treated as an empty bucket. -/
theorem failed_size_query_treated_empty_witness :
    get_bucket_size
        { name := "Wasabi", bucket_name := "thisismybuck", max_size_gb := none,
          clientOk := true, enabled := true }
        (CallResult.clientError "NoSuchBucket") = Except.ok (0, 0) :=
  (failed_size_query_treated_empty
    { name := "Wasabi", bucket_name := "thisismybuck", max_size_gb := none,
      clientOk := true, enabled := true }
    "NoSuchBucket" rfl).1

/-- C8 (code bug): at zero progress the ETA branch does report `"Unknown"`
without dividing, but `percentage = bytes_transferred / total_bytes * 100`
is unguarded: a `ProgressTracker` whose `total_bytes` is `0`, receiving a
callback one second after start, raises an uncaught `ZeroDivisionError`
instead of suppressing the percentage/ETA display. -/
theorem zero_total_progress_division :
    ProgressTracker.call (ProgressTracker.init "Wasabi" "empty.bin" 0 0) 0 1 =
      Except.error PyExc.uncaught ∧
    ProgressTracker.call (ProgressTracker.init "Wasabi" "file.bin" (100 * 1024 ^ 2) 0) 0 1 =
      Except.ok
        ({ cloud_name := "Wasabi", file_name := "file.bin",
           total_bytes := 100 * 1024 ^ 2, bytes_transferred := 0,
           start_time := 0, last_print_time := 1 },
         some { percentage := 0, speedMBps := 0, eta := Eta.unknown }) := by
  constructor
  · norm_num [ProgressTracker.call, ProgressTracker.init, pydiv, max_def]
  · norm_num [ProgressTracker.call, ProgressTracker.init, pydiv, max_def]

/-- C10: file enumeration returns exactly the regular files directly inside
the folder, in listing order, each with its size captured at enumeration
time; non-file entries (subdirectories) are silently dropped; a nonexistent
folder yields total `0` and an empty list rather than an error. -/
theorem local_scan_exact (folder_path : String) (fs : Folder) :
    (fs.present = false → get_local_files_size folder_path fs = (0, [])) ∧
    (fs.present = true →
      get_local_files_size folder_path fs =
        (((fs.entries.filter (fun e => e.isFile)).map (fun e => e.size)).sum,
         (fs.entries.filter (fun e => e.isFile)).map
           (fun e => (e.name, folder_path ++ "/" ++ e.name, e.size)))) := by
  constructor
  · intro h
    simp [get_local_files_size, h]
  · intro h
    simp only [get_local_files_size, h, if_pos]
    have key : ∀ (l : List DirEntry) (a : ℕ) (b : List (String × String × ℕ)),
        l.foldl
            (fun acc e =>
              if e.isFile then
                (acc.1 + e.size, acc.2 ++ [(e.name, folder_path ++ "/" ++ e.name, e.size)])
              else acc)
            (a, b) =
          (a + ((l.filter (fun e => e.isFile)).map (fun e => e.size)).sum,
           b ++ (l.filter (fun e => e.isFile)).map
             (fun e => (e.name, folder_path ++ "/" ++ e.name, e.size))) := by
      intro l
      induction l with
      | nil => intro a b; simp
      | cons e tl ih =>
        intro a b
        cases he : e.isFile with
        | true =>
          simp only [List.foldl_cons, he, if_true, List.filter_cons, ih]
          simp [add_assoc, List.append_assoc]
        | false =>
          simp only [List.foldl_cons, he, List.filter_cons, ih]
          simp
    simpa using key fs.entries 0 []

/-- Witness for C10: a folder holding one file and one subdirectory is
enumerated to just the file; the same entries under a missing folder give
`(0, [])`. -/
theorem local_scan_exact_witness :
    get_local_files_size "/content/3"
        { present := true,
          entries := [{ name := "a.bin", isFile := true, size := 7 },
                      { name := "sub", isFile := false, size := 4096 }] } =
      (7, [("a.bin", "/content/3/a.bin", 7)]) ∧
    get_local_files_size "/content/3"
        { present := false,
          entries := [{ name := "a.bin", isFile := true, size := 7 }] } =
      (0, []) := by
  constructor
  · have h :=
      (local_scan_exact "/content/3"
          { present := true,
            entries := [{ name := "a.bin", isFile := true, size := 7 },
                        { name := "sub", isFile := false, size := 4096 }] }).2 rfl
    rw [h]
    decide
  · exact
      (local_scan_exact "/content/3"
          { present := false,
            entries := [{ name := "a.bin", isFile := true, size := 7 }] }).1 rfl

/-- Reduction of `Except.bind` on a normal value. -/
lemma except_bind_ok {α β : Type} (a : α) (f : α → Except PyExc β) :
    (Except.ok a : Except PyExc α).bind f = f a := rfl

/-- Reduction of `onOk` on a normal value. -/
lemma onOk_ok {α : Type} (a : α) (f : α → MainOutcome) :
    onOk (Except.ok a) f = f a := rfl

/-- Reduction of `onOkCalls` on a normal value. -/
lemma onOkCalls_ok {α : Type} (a : α) (f : α → List (String × String)) :
    onOkCalls (Except.ok a) f = f a := rfl

/-- When no upload call raises an uncaught exception, the inner loop of
`upload_all_files` completes and appends, per ledger key, exactly the
entries `perFileAppend` describes. -/
lemma uploadConfigsLoop_ok (fname : String) (configs : List CloudConfig)
    (scr : List (String × Bool)) (u : String → String → CallResult Unit)
    (hu : ∀ f c, u f c ≠ CallResult.otherExc) (results : String → List String) :
    uploadConfigsLoop fname configs scr u results =
      Except.ok (fun k => results k ++ perFileAppend fname configs scr u k) := by
  induction configs generalizing results with
  | nil =>
    simp only [uploadConfigsLoop, perFileAppend]
    congr 1
    funext k
    simp
  | cons c cs ih =>
    simp only [uploadConfigsLoop]
    by_cases hec : (c.enabled && c.clientOk) = true
    · rw [if_pos hec]
      have hand : c.enabled = true ∧ c.clientOk = true := by simpa using hec
      cases hsz : lookupD scr c.name with
      | false =>
        have hup : upload_file_to_cloud c fname false u = Except.ok false := by
          simp [upload_file_to_cloud, hand.2]
        rw [hup, except_bind_ok, ih]
        have hta : targetAdmitted c scr = false := by
          simp [targetAdmitted, hsz]
        congr 1
        funext k
        simp [perFileAppend, hta]
      | true =>
        cases hres : u fname c.name with
        | ok v =>
          cases v
          have hup : upload_file_to_cloud c fname true u = Except.ok true := by
            simp [upload_file_to_cloud, hand.2, hres]
          rw [hup, except_bind_ok, ih]
          have hta : targetAdmitted c scr = true := by
            simp [targetAdmitted, hec, hsz]
          congr 1
          funext k
          by_cases hk : k = c.name
          · simp [perFileAppend, hk, hta, hres]
          · simp [perFileAppend, hk, hta, hres]
        | clientError code =>
          have hup : upload_file_to_cloud c fname true u = Except.ok false := by
            simp [upload_file_to_cloud, hand.2, hres]
          rw [hup, except_bind_ok, ih]
          congr 1
          funext k
          simp [perFileAppend, hres]
        | otherExc => exact absurd hres (hu fname c.name)
    · rw [if_neg hec]
      have hec' : (c.enabled && c.clientOk) = false := by
        cases h : (c.enabled && c.clientOk) with
        | true => exact absurd h hec
        | false => rfl
      rw [ih]
      have hta : targetAdmitted c scr = false := by
        simp [targetAdmitted, hec']
      congr 1
      funext k
      simp [perFileAppend, hta]

/-- When no upload call raises an uncaught exception, the whole upload loop
completes and appends, per ledger key, exactly the entries `filesAppend`
describes, in file enumeration order. -/
lemma uploadFilesLoop_ok (files : List (String × String × ℕ)) (configs : List CloudConfig)
    (scr : List (String × Bool)) (u : String → String → CallResult Unit)
    (hu : ∀ f c, u f c ≠ CallResult.otherExc) (results : String → List String) :
    uploadFilesLoop files configs scr u results =
      Except.ok (fun k => results k ++ filesAppend files configs scr u k) := by
  induction files generalizing results with
  | nil =>
    simp only [uploadFilesLoop, filesAppend]
    congr 1
    funext k
    simp
  | cons f fs ih =>
    simp only [uploadFilesLoop]
    rw [uploadConfigsLoop_ok f.1 configs scr u hu results, except_bind_ok, ih]
    congr 1
    funext k
    simp [filesAppend, List.append_assoc]

/-- A key no config of the list bears is never appended to. -/
lemma perFileAppend_not_mem (fname : String) (configs : List CloudConfig)
    (scr : List (String × Bool)) (u : String → String → CallResult Unit)
    (k : String) (h : ∀ a ∈ configs, a.name ≠ k) :
    perFileAppend fname configs scr u k = [] := by
  induction configs with
  | nil => rfl
  | cons a as ih =>
    have hne : ¬ (k = a.name ∧ targetAdmitted a scr = true ∧
        u fname a.name = CallResult.ok ()) := by
      intro hcon
      exact h a (List.mem_cons_self a as) hcon.1.symm
    simp only [perFileAppend, if_neg hne, List.nil_append]
    exact ih (fun b hb => h b (List.mem_cons_of_mem a hb))

/-- At the key of a config with a name unique in the list, one file appends
its name exactly when that config is admitted and its upload call returns
normally. -/
lemma perFileAppend_self (fname : String) (configs : List CloudConfig)
    (scr : List (String × Bool)) (u : String → String → CallResult Unit)
    (c : CloudConfig) (hc : c ∈ configs)
    (hdist : configs.Pairwise (fun a b => a.name ≠ b.name)) :
    perFileAppend fname configs scr u c.name =
      if targetAdmitted c scr = true ∧ u fname c.name = CallResult.ok ()
      then [fname] else [] := by
  induction configs with
  | nil => cases hc
  | cons a as ih =>
    rw [List.pairwise_cons] at hdist
    rcases List.mem_cons.mp hc with rfl | hmem
    · have hrest : perFileAppend fname as scr u c.name = [] :=
        perFileAppend_not_mem fname as scr u c.name
          (fun b hb => (hdist.1 b hb).symm)
      simp [perFileAppend, hrest]
    · have hne : a.name ≠ c.name := hdist.1 c hmem
      have hcon : ¬ (c.name = a.name ∧ targetAdmitted a scr = true ∧
          u fname a.name = CallResult.ok ()) := by
        intro hcon
        exact hne hcon.1.symm
      simp only [perFileAppend, if_neg hcon, List.nil_append]
      exact ih hmem hdist.2

/-- At the key of a config with a unique name, the whole-run appends are the
file names whose upload to that config returned normally, in enumeration
order — or nothing at all when the config is not admitted. -/
lemma filesAppend_self (files : List (String × String × ℕ)) (configs : List CloudConfig)
    (scr : List (String × Bool)) (u : String → String → CallResult Unit)
    (c : CloudConfig) (hc : c ∈ configs)
    (hdist : configs.Pairwise (fun a b => a.name ≠ b.name)) :
    filesAppend files configs scr u c.name =
      if targetAdmitted c scr = true then
        (files.filter (fun f => u f.1 c.name = CallResult.ok ())).map (fun f => f.1)
      else [] := by
  induction files with
  | nil => simp [filesAppend]
  | cons f fs ih =>
    simp only [filesAppend]
    rw [perFileAppend_self f.1 configs scr u c hc hdist, ih]
    by_cases hta : targetAdmitted c scr = true
    · simp only [hta, true_and, if_true]
      by_cases hok : u f.1 c.name = CallResult.ok ()
      · simp [List.filter_cons, hok]
      · simp [List.filter_cons, hok]
    · simp [hta]

/-- C2: after a completed run of the upload loop over targets with distinct
names, every target's ledger entry is exactly the list of file names whose
upload to that target returned normally, in file enumeration order; a
target that is disabled, client-less, or size-check-rejected has an empty
entry. -/
theorem ledger_exactly_successes (files : List (String × String × ℕ))
    (configs : List CloudConfig) (scr : List (String × Bool))
    (u : String → String → CallResult Unit)
    (hdist : configs.Pairwise (fun a b => a.name ≠ b.name))
    (hu : ∀ f c, u f c ≠ CallResult.otherExc)
    (L : String → List String)
    (hL : upload_all_files files configs scr u = Except.ok L) :
    ∀ c ∈ configs,
      L c.name =
        if targetAdmitted c scr = true then
          (files.filter (fun f => u f.1 c.name = CallResult.ok ())).map (fun f => f.1)
        else [] := by
  intro c hc
  rw [upload_all_files, uploadFilesLoop_ok files configs scr u hu] at hL
  have hfun := Except.ok.inj hL
  have hval : L c.name = filesAppend files configs scr u c.name := by
    rw [← hfun]
    simp
  rw [hval, filesAppend_self files configs scr u c hc hdist]

/-- Witness for C2: a run over two files where only `"x"` uploads cleanly
yields the ledger `["x"]` for target `"CF"`. -/
theorem ledger_exactly_successes_witness : wLedger "CF" = ["x"] := by
  have h := ledger_exactly_successes wfiles [wcfgA] wscr wu
      (by simp)
      (by intro f c; simp only [wu]; split <;> simp)
      wLedger rfl wcfgA (by simp)
  rw [show wcfgA.name = "CF" from rfl] at h
  rw [h]
  decide

/-- When no upload call raises an uncaught exception, the inner loop's
client-call trace for one file is one call per admitted config, in order,
with no abort. -/
lemma uploadCallsConfigsLoop_no_exc (fname : String) (configs : List CloudConfig)
    (scr : List (String × Bool)) (u : String → String → CallResult Unit)
    (hu : ∀ f c, u f c ≠ CallResult.otherExc) :
    uploadCallsConfigsLoop fname configs scr u =
      ((configs.filter (fun c => targetAdmitted c scr)).map (fun c => (fname, c.name)),
       false) := by
  induction configs with
  | nil => rfl
  | cons c cs ih =>
    simp only [uploadCallsConfigsLoop]
    by_cases hec : (c.enabled && c.clientOk) = true
    · rw [if_pos hec]
      by_cases hsz : lookupD scr c.name = true
      · rw [if_pos hsz]
        have hta : targetAdmitted c scr = true := by
          simp [targetAdmitted, hec, hsz]
        cases hres : u fname c.name with
        | ok v => simp [ih, List.filter_cons, hta]
        | clientError code => simp [ih, List.filter_cons, hta]
        | otherExc => exact absurd hres (hu fname c.name)
      · rw [if_neg hsz]
        have hsz' : lookupD scr c.name = false := by
          revert hsz
          cases lookupD scr c.name <;> simp
        have hta : targetAdmitted c scr = false := by
          simp [targetAdmitted, hsz']
        simp [ih, List.filter_cons, hta]
    · rw [if_neg hec]
      have hec' : (c.enabled && c.clientOk) = false := by
        revert hec
        cases (c.enabled && c.clientOk) <;> simp
      have hta : targetAdmitted c scr = false := by
        simp [targetAdmitted, hec']
      simp [ih, List.filter_cons, hta]

/-- When no upload call raises an uncaught exception, the full client-call
trace is exactly one call per (file, admitted target) pair in enumeration
order — in particular it does not depend on the upload outcomes at all. -/
lemma uploadClientCalls_no_exc (files : List (String × String × ℕ))
    (configs : List CloudConfig) (scr : List (String × Bool))
    (u : String → String → CallResult Unit)
    (hu : ∀ f c, u f c ≠ CallResult.otherExc) :
    uploadClientCalls files configs scr u = allAdmittedCalls files configs scr := by
  induction files with
  | nil => rfl
  | cons f fs ih =>
    simp only [uploadClientCalls, uploadCallsFilesLoop] at ih ⊢
    rw [uploadCallsConfigsLoop_no_exc f.1 configs scr u hu]
    simp [ih, allAdmittedCalls]

/-- Every (file, admitted target) pair appears in the admitted-call list. -/
lemma mem_allAdmittedCalls (files : List (String × String × ℕ))
    (configs : List CloudConfig) (scr : List (String × Bool))
    (f : String × String × ℕ) (hf : f ∈ files) (c : CloudConfig) (hc : c ∈ configs)
    (hta : targetAdmitted c scr = true) :
    (f.1, c.name) ∈ allAdmittedCalls files configs scr := by
  induction files with
  | nil => cases hf
  | cons g gs ih =>
    rcases List.mem_cons.mp hf with rfl | hmem
    · simp only [allAdmittedCalls]
      apply List.mem_append_left
      exact List.mem_map.mpr ⟨c, List.mem_filter.mpr ⟨hc, by simp [hta]⟩, rfl⟩
    · simp only [allAdmittedCalls]
      exact List.mem_append_right _ (ih hmem)

/-- C3: failures are independent.  If `u` and `u'` are upload behaviours
that differ at most on the pair (file `X`, target `A`), both without
uncaught exceptions, then both runs complete, target `B`'s ledger entry is
identical under both (so `X`'s outcome on `B` is unaffected by its failure
on `A`), any other file name `Y` sits in `A`'s ledger under `u` iff it does
under `u'` (so `Y` on `A` is not skipped because `X` failed), and the trace
of attempted client calls is identical — no pair is skipped or aborted. -/
theorem independent_failure (files : List (String × String × ℕ))
    (configs : List CloudConfig) (scr : List (String × Bool))
    (u u' : String → String → CallResult Unit) (A B : CloudConfig) (X Y : String)
    (hdist : configs.Pairwise (fun a b => a.name ≠ b.name))
    (hu : ∀ f c, u f c ≠ CallResult.otherExc)
    (hu' : ∀ f c, u' f c ≠ CallResult.otherExc)
    (hA : A ∈ configs) (hB : B ∈ configs) (hAB : A.name ≠ B.name)
    (hYX : Y ≠ X)
    (hagree : ∀ f c, ¬(f = X ∧ c = A.name) → u f c = u' f c) :
    (∃ L L', upload_all_files files configs scr u = Except.ok L ∧
        upload_all_files files configs scr u' = Except.ok L' ∧
        L B.name = L' B.name ∧
        (Y ∈ L A.name ↔ Y ∈ L' A.name)) ∧
    uploadClientCalls files configs scr u = uploadClientCalls files configs scr u' := by
  constructor
  · refine ⟨fun k => [] ++ filesAppend files configs scr u k,
        fun k => [] ++ filesAppend files configs scr u' k,
        by rw [upload_all_files, uploadFilesLoop_ok files configs scr u hu],
        by rw [upload_all_files, uploadFilesLoop_ok files configs scr u' hu'],
        ?_, ?_⟩
    · simp only [List.nil_append]
      rw [filesAppend_self files configs scr u B hB hdist,
          filesAppend_self files configs scr u' B hB hdist]
      by_cases hta : targetAdmitted B scr = true
      · simp only [hta, if_true]
        congr 1
        apply List.filter_congr
        intro f hf
        have hag : u f.1 B.name = u' f.1 B.name := by
          apply hagree
          rintro ⟨-, h2⟩
          exact hAB h2.symm
        rw [hag]
      · simp [hta]
    · simp only [List.nil_append]
      rw [filesAppend_self files configs scr u A hA hdist,
          filesAppend_self files configs scr u' A hA hdist]
      by_cases hta : targetAdmitted A scr = true
      · simp only [hta, if_true]
        have dir : ∀ w w' : String → String → CallResult Unit,
            (∀ f c, ¬(f = X ∧ c = A.name) → w f c = w' f c) →
            Y ∈ (files.filter (fun f => w f.1 A.name = CallResult.ok ())).map
                  (fun f => f.1) →
            Y ∈ (files.filter (fun f => w' f.1 A.name = CallResult.ok ())).map
                  (fun f => f.1) := by
          intro w w' hag hmem
          rcases List.mem_map.mp hmem with ⟨f, hf, hfy⟩
          rcases List.mem_filter.mp hf with ⟨hfin, hok⟩
          refine List.mem_map.mpr ⟨f, List.mem_filter.mpr ⟨hfin, ?_⟩, hfy⟩
          have hfx : ¬(f.1 = X ∧ A.name = A.name) := by
            rintro ⟨h1, -⟩
            exact hYX (by rw [← hfy, h1])
          have heq : w f.1 A.name = w' f.1 A.name := hag f.1 A.name hfx
          simp only [decide_eq_true_eq] at hok ⊢
          rw [← heq]
          exact hok
        exact ⟨dir u u' hagree, dir u' u (fun f c h => (hagree f c h).symm)⟩
      · simp [hta]
  · rw [uploadClientCalls_no_exc files configs scr u hu,
        uploadClientCalls_no_exc files configs scr u' hu']

/-- Witness for C3: with target `"A"` failing exactly on file `"X"`, target
`"B"`'s ledger and file `"Y"`'s fate on `"A"` match the all-success run, and
the attempted calls coincide. -/
theorem independent_failure_witness :
    (∃ L L', upload_all_files wfiles2 [wA, wB] wscr2 wuFail = Except.ok L ∧
        upload_all_files wfiles2 [wA, wB] wscr2 wuOk = Except.ok L' ∧
        L wB.name = L' wB.name ∧
        ("Y" ∈ L wA.name ↔ "Y" ∈ L' wA.name)) ∧
    uploadClientCalls wfiles2 [wA, wB] wscr2 wuFail =
      uploadClientCalls wfiles2 [wA, wB] wscr2 wuOk := by
  have h := independent_failure wfiles2 [wA, wB] wscr2 wuFail wuOk wA wB "X" "Y"
      (by simp [wA, wB])
      (by intro f c; simp only [wuFail]; split <;> simp)
      (by intro f c; simp [wuOk])
      (by simp) (by simp) (by simp [wA, wB]) (by simp)
      (by
        intro f c hfc
        have hcond : ¬(f = "X" ∧ c = "A") := by simpa [wA] using hfc
        simp [wuFail, wuOk, hcond])
  exact h

/-- When neither bucket call raises a non-`ClientError` exception, the
bucket check returns normally (existing bucket, created bucket, or a
recorded `False`). -/
lemma create_bucket_ok (c : CloudConfig) (hres cres : CallResult Unit)
    (hh : hres ≠ CallResult.otherExc) (hcr : cres ≠ CallResult.otherExc) :
    ∃ b, create_bucket_if_not_exists c hres cres = Except.ok b := by
  unfold create_bucket_if_not_exists
  by_cases hc : c.clientOk = true
  · rw [if_pos hc]
    cases hres with
    | ok v => exact ⟨true, rfl⟩
    | clientError code =>
      by_cases h4 : code = "404"
      · cases cres with
        | ok v => exact ⟨true, by simp [h4]⟩
        | clientError c2 => exact ⟨false, by simp [h4]⟩
        | otherExc => exact absurd rfl hcr
      · exact ⟨false, by simp [h4]⟩
    | otherExc => exact absurd rfl hh
  · rw [if_neg hc]
    exact ⟨false, rfl⟩

/-- The bucket phase completes when no bucket call raises a
non-`ClientError` exception. -/
lemma bucketsLoop_ok (configs : List CloudConfig) (headO createO : String → CallResult Unit)
    (hh : ∀ n, headO n ≠ CallResult.otherExc)
    (hcr : ∀ n, createO n ≠ CallResult.otherExc) :
    ∀ acc, ∃ bs, bucketsLoop configs headO createO acc = Except.ok bs := by
  induction configs with
  | nil => intro acc; exact ⟨acc, rfl⟩
  | cons c cs ih =>
    intro acc
    simp only [bucketsLoop]
    by_cases hec : (c.enabled && c.clientOk) = true
    · rw [if_pos hec]
      obtain ⟨b, hb⟩ := create_bucket_ok c (headO c.name) (createO c.name) (hh _) (hcr _)
      rw [hb, except_bind_ok]
      exact ih (acc ++ [b])
    · rw [if_neg hec]
      exact ih acc

/-- An occupied-size query returns normally unless the listing raised a
non-`ClientError` exception. -/
lemma get_bucket_size_ok (c : CloudConfig) (listing : CallResult (List ℕ))
    (hl : listing ≠ CallResult.otherExc) :
    ∃ v, get_bucket_size c listing = Except.ok v := by
  unfold get_bucket_size
  by_cases hc : c.clientOk = true
  · rw [if_pos hc]
    cases listing with
    | ok objs => exact ⟨(objs.sum, objs.length), rfl⟩
    | clientError code => exact ⟨(0, 0), rfl⟩
    | otherExc => exact absurd rfl hl
  · rw [if_neg hc]
    exact ⟨(0, 0), rfl⟩

/-- The size-check phase completes when no listing raises a
non-`ClientError` exception. -/
lemma sizeLimitLoop_ok (configs : List CloudConfig)
    (listing : String → CallResult (List ℕ)) (n : ℕ)
    (hl : ∀ nm, listing nm ≠ CallResult.otherExc) :
    ∀ acc, ∃ scr, sizeLimitLoop configs listing n acc = Except.ok scr := by
  induction configs with
  | nil => intro acc; exact ⟨acc, rfl⟩
  | cons c cs ih =>
    intro acc
    simp only [sizeLimitLoop]
    by_cases hec : (c.enabled && c.clientOk) = true
    · rw [if_pos hec]
      obtain ⟨v, hv⟩ := get_bucket_size_ok c (listing c.name) (hl _)
      rw [hv, except_bind_ok]
      cases hm : c.max_size_gb with
      | some g => exact ih _
      | none => exact ih _
    · rw [if_neg hec]
      exact ih acc

/-- The presign loop completes, and returns the accumulated pairs followed
by one `(name, url)` pair per name whose presign call succeeded, in order,
when no presign call raises a non-`ClientError` exception. -/
lemma presignLoop_char (names : List String) (presign : String → ℕ → CallResult String)
    (expiration : ℕ) (hp : ∀ n, presign n expiration ≠ CallResult.otherExc) :
    ∀ acc, presignLoop names presign expiration acc =
      Except.ok (acc ++ names.filterMap (fun n =>
        match presign n expiration with
        | CallResult.ok url => some (n, url)
        | _ => none)) := by
  induction names with
  | nil => intro acc; simp [presignLoop]
  | cons n ns ih =>
    intro acc
    simp only [presignLoop]
    cases hr : presign n expiration with
    | ok url => simp [ih, List.filterMap_cons, hr]
    | clientError code => simp [ih, List.filterMap_cons, hr]
    | otherExc => exact absurd hr (hp n)

/-- URL generation for one target completes when no presign call raises a
non-`ClientError` exception. -/
lemma generate_presigned_urls_ok (c : CloudConfig) (names : List String)
    (presign : String → ℕ → CallResult String) (expiration : ℕ)
    (hp : ∀ n, presign n expiration ≠ CallResult.otherExc) :
    ∃ urls, generate_presigned_urls c names presign expiration = Except.ok urls := by
  unfold generate_presigned_urls
  by_cases hc : c.clientOk = true
  · rw [if_pos hc, presignLoop_char names presign expiration hp []]
    exact ⟨_, rfl⟩
  · rw [if_neg hc]
    exact ⟨[], rfl⟩

/-- The summary's bucket re-query pass completes when no listing raises a
non-`ClientError` exception. -/
lemma summarySizesLoop_ok (configs : List CloudConfig) (results : String → List String)
    (listing : String → CallResult (List ℕ))
    (hl : ∀ nm, listing nm ≠ CallResult.otherExc) :
    summarySizesLoop configs results listing = Except.ok () := by
  induction configs with
  | nil => rfl
  | cons c cs ih =>
    simp only [summarySizesLoop]
    by_cases he : c.enabled = true
    · rw [if_pos he]
      by_cases hemp : (results c.name).isEmpty = true
      · rw [if_pos hemp]
        exact ih
      · rw [if_neg hemp]
        obtain ⟨v, hv⟩ := get_bucket_size_ok c (listing c.name) (hl _)
        rw [hv, except_bind_ok]
        exact ih
    · rw [if_neg he]
      exact ih

/-- The summary's URL pass completes when no presign call raises a
non-`ClientError` exception. -/
lemma summaryUrlsLoop_ok (configs : List CloudConfig) (results : String → List String)
    (presign : String → String → ℕ → CallResult String)
    (hp : ∀ nm k e, presign nm k e ≠ CallResult.otherExc) :
    ∀ acc, ∃ rep, summaryUrlsLoop configs results presign acc = Except.ok rep := by
  induction configs with
  | nil => intro acc; exact ⟨acc, rfl⟩
  | cons c cs ih =>
    intro acc
    simp only [summaryUrlsLoop]
    by_cases he : c.enabled = true
    · rw [if_pos he]
      by_cases hemp : (results c.name).isEmpty = true
      · rw [if_pos hemp]
        exact ih acc
      · rw [if_neg hemp]
        obtain ⟨urls, hu2⟩ := generate_presigned_urls_ok c (results c.name)
          (presign c.name) 604800 (fun n => hp c.name n 604800)
        rw [hu2, except_bind_ok]
        exact ih _
    · rw [if_neg he]
      exact ih acc

/-- The whole reporting phase completes when no listing or presign call
raises a non-`ClientError` exception. -/
lemma print_summary_ok (configs : List CloudConfig) (results : String → List String)
    (listing : String → CallResult (List ℕ))
    (presign : String → String → ℕ → CallResult String)
    (hl : ∀ nm, listing nm ≠ CallResult.otherExc)
    (hp : ∀ nm k e, presign nm k e ≠ CallResult.otherExc) :
    ∃ rep, print_summary_model configs results listing presign = Except.ok rep := by
  unfold print_summary_model
  rw [summarySizesLoop_ok configs results listing hl, except_bind_ok]
  exact summaryUrlsLoop_ok configs results presign hp []

/-- Counterexample to C4 as stated: an upload error that is not a
`ClientError` (boto3's `upload_file` raises `S3UploadFailedError`, which
`except ClientError` does not catch) propagates out of the upload loop and
crashes the whole run, instead of being captured as that pair's outcome. -/
theorem uncaught_exception_escapes :
    upload_all_files [("f.bin", "/content/3/f.bin", 7)] [wcfgA] [("CF", true)]
        (fun _ _ => CallResult.otherExc) = Except.error PyExc.uncaught ∧
    mainRun envBad = MainOutcome.crashed PyExc.uncaught :=
  ⟨rfl, rfl⟩

/-- C4 as amended: when every failing client call raises a `ClientError`
(the only exception class the script catches), all per-pair and per-target
errors are captured as data — the run never crashes, terminating only as
no-files, no-eligible-targets, or normal completion. -/
theorem clienterror_captured_terminal_only (env : Env)
    (hu : ∀ f c, env.upload f c ≠ CallResult.otherExc)
    (hl : ∀ n, env.listing n ≠ CallResult.otherExc)
    (hh : ∀ n, env.headO n ≠ CallResult.otherExc)
    (hcr : ∀ n, env.createO n ≠ CallResult.otherExc)
    (hp : ∀ n k e, env.presign n k e ≠ CallResult.otherExc) :
    mainRun env = MainOutcome.noFiles ∨ mainRun env = MainOutcome.noEligible ∨
      ∃ L rep, mainRun env = MainOutcome.completed L rep := by
  obtain ⟨bs, hbs⟩ := bucketsLoop_ok env.configs env.headO env.createO hh hcr []
  unfold mainRun check_all_buckets
  rw [hbs, onOk_ok]
  by_cases hemp : (get_local_files_size FOLDER_PATH env.folder).2.isEmpty = true
  · rw [if_pos hemp]
    left
    rfl
  · rw [if_neg hemp]
    obtain ⟨scr, hscr⟩ := sizeLimitLoop_ok env.configs env.listing
      (get_local_files_size FOLDER_PATH env.folder).1 hl []
    unfold check_all_size_limits
    rw [hscr, onOk_ok]
    by_cases hany : scr.any (fun p => p.2) = true
    · rw [if_pos hany]
      unfold upload_all_files
      rw [uploadFilesLoop_ok (get_local_files_size FOLDER_PATH env.folder).2
            env.configs scr env.upload hu, onOk_ok]
      obtain ⟨rep, hrep⟩ := print_summary_ok env.configs
        (fun k => (fun _ => []) k ++
          filesAppend (get_local_files_size FOLDER_PATH env.folder).2 env.configs scr
            env.upload k)
        env.listing env.presign hl hp
      rw [hrep, onOk_ok]
      right; right
      exact ⟨_, rep, rfl⟩
    · rw [if_neg hany]
      right; left
      rfl

/-- Witness for the amended C4: with every upload failing via `ClientError`,
the run still terminates in one of the three captured shapes. -/
theorem clienterror_captured_terminal_only_witness :
    mainRun envGood = MainOutcome.noFiles ∨ mainRun envGood = MainOutcome.noEligible ∨
      ∃ L rep, mainRun envGood = MainOutcome.completed L rep :=
  clienterror_captured_terminal_only envGood
    (by intro f c; simp [envGood])
    (by intro n; simp [envGood])
    (by intro n; simp [envGood])
    (by intro n; simp [envGood])
    (by intro n k e; simp [envGood])

/-- Counterexample to C5 as stated: a run over a folder with zero files
terminates through `exit(0)` — exit indicator 0, not non-zero. -/
theorem no_files_exits_zero :
    mainRun envEmptyFolder = MainOutcome.noFiles ∧
    mainExitCode (mainRun envEmptyFolder) = 0 :=
  ⟨rfl, rfl⟩

/-- C5 as amended: the zero-files terminal case exits with indicator 0
(`exit(0)`), while the zero-eligible-targets case exits with indicator 1,
stops before any client upload call, and produces no ledger. -/
theorem terminal_exit_codes (env : Env) (bs : List Bool)
    (hb : check_all_buckets env.configs env.headO env.createO = Except.ok bs) :
    ((get_local_files_size FOLDER_PATH env.folder).2.isEmpty = true →
      mainRun env = MainOutcome.noFiles ∧ mainExitCode (mainRun env) = 0) ∧
    (∀ scr : List (String × Bool),
      (get_local_files_size FOLDER_PATH env.folder).2.isEmpty = false →
      check_all_size_limits env.configs env.listing
          (get_local_files_size FOLDER_PATH env.folder).1 = Except.ok scr →
      scr.any (fun p => p.2) = false →
      mainRun env = MainOutcome.noEligible ∧ mainExitCode (mainRun env) = 1 ∧
        mainClientCalls env = []) := by
  constructor
  · intro hemp
    have hrun : mainRun env = MainOutcome.noFiles := by
      unfold mainRun
      rw [hb, onOk_ok, if_pos hemp]
    exact ⟨hrun, by rw [hrun]; rfl⟩
  · intro scr hemp hscr hany
    have hrun : mainRun env = MainOutcome.noEligible := by
      unfold mainRun
      rw [hb, onOk_ok, if_neg (by simp [hemp]), hscr, onOk_ok, if_neg (by simp [hany])]
    refine ⟨hrun, by rw [hrun]; rfl, ?_⟩
    unfold mainClientCalls
    rw [hb, onOkCalls_ok, if_neg (by simp [hemp]), hscr, onOkCalls_ok,
        if_neg (by simp [hany])]

/-- Witness for the amended C5: a 0 GB quota rejects the batch, no target is
eligible, the run exits with indicator 1 having attempted no upload. -/
theorem terminal_exit_codes_witness :
    mainRun envNoEligible = MainOutcome.noEligible ∧
    mainExitCode (mainRun envNoEligible) = 1 ∧ mainClientCalls envNoEligible = [] := by
  have hscr : check_all_size_limits envNoEligible.configs envNoEligible.listing
      (get_local_files_size FOLDER_PATH envNoEligible.folder).1 =
        Except.ok [("CF", false)] := by
    have h7 : ¬ (((7 : ℕ) : ℚ) + ((0 : ℕ) : ℚ) ≤ 0 * 1024 ^ 3) := by norm_num
    norm_num [check_all_size_limits, sizeLimitLoop, get_bucket_size, check_size_limit,
      envNoEligible, get_local_files_size, FOLDER_PATH, except_bind_ok]
  exact (terminal_exit_codes envNoEligible [true] rfl).2 [("CF", false)] rfl hscr rfl

/-- Counterexample to C6 as stated: a target whose bucket does not exist and
whose creation fails (`create_bucket_if_not_exists` returns `False`) is NOT
skipped — the run still performs a client upload call for it for every file
(each failing with a caught `ClientError`, leaving its ledger entry empty,
so the run completes with an empty ledger and report). -/
theorem bucket_unavailable_still_attempted :
    create_bucket_if_not_exists wT (envBucketGone.headO "T") (envBucketGone.createO "T") =
      Except.ok false ∧
    mainClientCalls envBucketGone = [("f.bin", "T")] ∧
    ∃ rep, mainRun envBucketGone = MainOutcome.completed (fun _ => []) rep :=
  ⟨rfl, rfl, [], rfl⟩

/-- C6 as amended: the result of the bucket check is computed and then
discarded, so a target whose bucket is unavailable is not skipped — every
enumerated file still produces a client upload call to that target whenever
it is enabled, has a live client, and passed the size check. -/
theorem bucket_result_discarded (env : Env) (T : CloudConfig) (hT : T ∈ env.configs)
    (hbf : create_bucket_if_not_exists T (env.headO T.name) (env.createO T.name) =
      Except.ok false)
    (bs : List Bool)
    (hb : check_all_buckets env.configs env.headO env.createO = Except.ok bs)
    (hu : ∀ f c, env.upload f c ≠ CallResult.otherExc)
    (scr : List (String × Bool))
    (hscr : check_all_size_limits env.configs env.listing
      (get_local_files_size FOLDER_PATH env.folder).1 = Except.ok scr)
    (hemp : (get_local_files_size FOLDER_PATH env.folder).2.isEmpty = false)
    (hadm : targetAdmitted T scr = true)
    (hany : scr.any (fun p => p.2) = true) :
    ∀ f ∈ (get_local_files_size FOLDER_PATH env.folder).2,
      (f.1, T.name) ∈ mainClientCalls env := by
  intro f hf
  unfold mainClientCalls
  rw [hb, onOkCalls_ok, if_neg (by simp [hemp]), hscr, onOkCalls_ok, if_pos hany]
  rw [uploadClientCalls_no_exc (get_local_files_size FOLDER_PATH env.folder).2
        env.configs scr env.upload hu]
  exact mem_allAdmittedCalls (get_local_files_size FOLDER_PATH env.folder).2
    env.configs scr f hf T hT hadm

/-- Witness for the amended C6: in the missing-bucket run the file is still
offered to target `"T"`. -/
theorem bucket_result_discarded_witness :
    ("f.bin", "T") ∈ mainClientCalls envBucketGone := by
  have h := bucket_result_discarded envBucketGone wT (by simp [envBucketGone])
      rfl [false] rfl
      (by intro f c; simp [envBucketGone])
      [("T", true)] rfl rfl rfl rfl
      ("f.bin", "/content/3/f.bin", 7) (by decide)
  exact h

/-- C9: with a live client and no uncaught exception, URL generation returns
exactly one `(fileName, url)` pair per file whose presign call succeeded, in
order — a file whose presign call fails with a `ClientError` is omitted
from the returned list while generation continues for the remaining files,
and the input list of succeeded names (the ledger entry) is not modified. -/
theorem presign_failure_omits_file (c : CloudConfig) (names : List String)
    (presign : String → ℕ → CallResult String) (expiration : ℕ)
    (hc : c.clientOk = true)
    (hp : ∀ n, presign n expiration ≠ CallResult.otherExc) :
    generate_presigned_urls c names presign expiration =
      Except.ok (names.filterMap (fun n =>
        match presign n expiration with
        | CallResult.ok url => some (n, url)
        | _ => none)) ∧
    ∀ n code, presign n expiration = CallResult.clientError code →
      ∀ url, (n, url) ∉ names.filterMap (fun n' =>
        match presign n' expiration with
        | CallResult.ok url' => some (n', url')
        | _ => none) := by
  constructor
  · unfold generate_presigned_urls
    rw [if_pos hc, presignLoop_char names presign expiration hp []]
    simp
  · intro n code hcode url hmem
    rcases List.mem_filterMap.mp hmem with ⟨a, ha, hfa⟩
    cases hpa : presign a expiration with
    | ok u2 =>
      rw [hpa] at hfa
      simp only [Option.some.injEq, Prod.mk.injEq] at hfa
      rw [hfa.1] at hpa
      rw [hcode] at hpa
      simp at hpa
    | clientError c2 =>
      rw [hpa] at hfa
      simp at hfa
    | otherExc => exact absurd hpa (hp a)

/-- Witness for C9: of the files `"a"` and `"b2"`, the presign failure on
`"b2"` omits only that file; `"a"` still gets its URL. -/
theorem presign_failure_omits_file_witness :
    generate_presigned_urls wcfgA ["a", "b2"] wpresign 604800 =
      Except.ok [("a", "https://x/a")] := by
  have h := (presign_failure_omits_file wcfgA ["a", "b2"] wpresign 604800 rfl
      (by intro n; simp only [wpresign]; split <;> simp)).1
  rw [h]
  rfl

end S3Multi
